import Mathlib

/-!
Verification of the context budget allocation, prioritization and truncation
engine of this repository. The engine lives in two source files:

* `.github/scripts/context-manager.ts` (class `ContextManager`): token
  estimation, budget allocation with weight normalization, content-aware
  truncation, keyword-based priority ranking and priority reallocation.
* the context-aware-instructions MCP server (`getContextualInstructions`):
  aggregate-budget selection over a list of content items.

Text payloads are modelled as `List Char` (JS strings, by code unit), JS
numbers holding integer quantities as `Int`/`Nat`, and JS floating point
percentage arithmetic as exact rational arithmetic over `Rat`.  All
definitions are translated from the TypeScript/JavaScript source.

The four rational arithmetic primitives below are `irreducible` in Batteries,
which blocks evaluation by `decide`; re-marking them `semireducible` locally
restores it without changing any definition.
-/

attribute [local semireducible] Rat.mul Rat.inv Rat.add Rat.sub

instance exceptDecEq {ε α : Type} [DecidableEq ε] [DecidableEq α] :
    DecidableEq (Except ε α) := fun x y =>
  match x, y with
  | .error e, .error f =>
    if h : e = f then .isTrue (congrArg Except.error h)
    else .isFalse fun c => h (Except.error.inj c)
  | .ok a, .ok b =>
    if h : a = b then .isTrue (congrArg Except.ok h)
    else .isFalse fun c => h (Except.ok.inj c)
  | .error _, .ok _ => .isFalse fun c => nomatch c
  | .ok _, .error _ => .isFalse fun c => nomatch c

/-- Fixed ratio of the token estimator: 4 characters per token
(`CHARS_PER_TOKEN` in the source). -/
def CHARS_PER_TOKEN : Nat := 4

/-- `ContextManager.estimateTokens`: `Math.ceil(content.length / 4)`,
written over naturals as ceiling division by 4. -/
def estimateTokens (content : List Char) : Nat :=
  (content.length + (CHARS_PER_TOKEN - 1)) / CHARS_PER_TOKEN

/-- `ContextManager.getCharLimit`: `tokens * 4`. -/
def getCharLimit (tokens : Nat) : Nat :=
  tokens * CHARS_PER_TOKEN

/-- Accumulator loop of JS `String.prototype.lastIndexOf` restricted to a
single character: scan left to right remembering the last position where the
character occurred, `-1` when it never does. `i` is the index of the head of
the remaining list, `best` the best position seen so far. -/
def lastIndexOfAux (c : Char) : List Char → Int → Int → Int
  | [], _, best => best
  | x :: xs, i, best => lastIndexOfAux c xs (i + 1) (if x = c then i else best)

/-- JS `str.lastIndexOf(c)`: index of the last occurrence of `c` in `str`,
`-1` if absent. -/
def lastIndexOf (c : Char) (l : List Char) : Int :=
  lastIndexOfAux c l 0 (-1)

/-- The fixed truncation marker suffix appended by `ContextManager.truncate`. -/
def truncationMarker : List Char :=
  ("\n\n[... content truncated to fit context budget ...]").data

/-- Result record of `ContextManager.truncate` (interface `TruncationResult`);
the nested `original`/`truncated` objects are flattened into four fields. -/
structure TruncationResult where
  content : List Char
  originalLength : Nat
  originalTokens : Nat
  truncatedLength : Nat
  truncatedTokens : Nat
  wasTruncated : Bool
  percentRetained : Nat
deriving DecidableEq, Repr

/-- The rightmost candidate boundary inside the candidate cut
`content.take maxChars`: maximum of the last `'.'`, last newline and last
`'#'` positions (`lastGoodPoint` in the source), `-1` when none occurs. -/
def lastGoodPoint (content : List Char) (maxChars : Nat) : Int :=
  max (lastIndexOf ('.') (content.take maxChars))
    (max (lastIndexOf ('\n') (content.take maxChars))
      (lastIndexOf ('#') (content.take maxChars)))

/-- The cut part of the oversized branch of `ContextManager.truncate`
(variable `truncated` in the source, before the marker is appended): the
boundary cut `content.substring(0, lastGoodPoint + 1)` when the boundary
lies past 70% of `maxChars`, else the hard cut
`content.substring(0, maxChars)`. -/
def truncCut (content : List Char) (maxChars : Nat) : List Char :=
  if 10 * lastGoodPoint content maxChars > 7 * (maxChars : Int) then
    content.take (lastGoodPoint content maxChars + 1).toNat
  else
    content.take maxChars

/-- `ContextManager.truncate(content, budget)`.  The budget is a token count;
`maxChars = getCharLimit budget`.  If the content already fits it is returned
unchanged; otherwise the `truncCut` cut is taken (the float comparison
`lastGoodPoint > maxChars * 0.7` is embedded as the exact rational
comparison `10 * lastGoodPoint > 7 * maxChars`) and the marker suffix is
appended after it.  `percentRetained` is
`Math.round(truncated.length / content.length * 100)`, embedded as exact
round-half-up over naturals. -/
def truncate (content : List Char) (budget : Nat) : TruncationResult :=
  if content.length ≤ getCharLimit budget then
    { content := content
      originalLength := content.length
      originalTokens := estimateTokens content
      truncatedLength := content.length
      truncatedTokens := estimateTokens content
      wasTruncated := false
      percentRetained := 100 }
  else
    { content := truncCut content (getCharLimit budget) ++ truncationMarker
      originalLength := content.length
      originalTokens := estimateTokens content
      truncatedLength := (truncCut content (getCharLimit budget)).length
      truncatedTokens := estimateTokens (truncCut content (getCharLimit budget))
      wasTruncated := true
      percentRetained :=
        (200 * (truncCut content (getCharLimit budget)).length + content.length) /
          (2 * content.length) }

/-- Resolved configuration of a `ContextManager` (interface `ContextConfig`):
a total token budget and four percentage weights.  Percentages are JS floats,
embedded as exact rationals; the total budget is an integer quantity. -/
structure ContextConfig where
  totalBudget : Int
  instructionsPercent : Rat
  docsPercent : Rat
  agentPercent : Rat
  responsePercent : Rat
deriving DecidableEq, Repr

/-- Constructor argument `Partial<ContextConfig>`: every field optional. -/
structure ContextConfigInput where
  totalBudget : Option Int
  instructionsPercent : Option Rat
  docsPercent : Option Rat
  agentPercent : Option Rat
  responsePercent : Option Rat
deriving DecidableEq, Repr

/-- Default resolution in the `ContextManager` constructor: each missing
field is replaced with its default (`?? 6000`, `?? 40`, `?? 30`, `?? 20`,
`?? 10`). -/
def resolveConfig (c : ContextConfigInput) : ContextConfig :=
  { totalBudget := c.totalBudget.getD 6000
    instructionsPercent := c.instructionsPercent.getD 40
    docsPercent := c.docsPercent.getD 30
    agentPercent := c.agentPercent.getD 20
    responsePercent := c.responsePercent.getD 10 }

/-- Sum of the four configured percentage weights (local `total` in the
constructor's validation step). -/
def configWeightSum (c : ContextConfig) : Rat :=
  c.instructionsPercent + c.docsPercent + c.agentPercent + c.responsePercent

/-- Weight-normalization step of the `ContextManager` constructor: when
`Math.abs(total - 100) > 1`, every percentage is rescaled by the factor
`scale = 100 / total` where `total = configWeightSum c`; otherwise the
configuration is left untouched. -/
def normalizeConfig (c : ContextConfig) : ContextConfig :=
  if 1 < |configWeightSum c - 100| then
    { c with
        instructionsPercent := c.instructionsPercent * (100 / configWeightSum c)
        docsPercent := c.docsPercent * (100 / configWeightSum c)
        agentPercent := c.agentPercent * (100 / configWeightSum c)
        responsePercent := c.responsePercent * (100 / configWeightSum c) }
  else
    c

/-- Per-category allocation snapshot (interface `ContextAllocation`). -/
structure ContextAllocation where
  instructions : Int
  docs : Int
  agent : Int
  reserved : Int
  total : Int
deriving DecidableEq, Repr

/-- `ContextManager.calculateAllocation`: each category receives
`Math.floor(total * (percent / 100))`; `reserved` comes from
`responsePercent`, and the `total` field carries the total budget through. -/
def calculateAllocation (c : ContextConfig) : ContextAllocation :=
  { instructions := Rat.floor ((c.totalBudget : Rat) * (c.instructionsPercent / 100))
    docs := Rat.floor ((c.totalBudget : Rat) * (c.docsPercent / 100))
    agent := Rat.floor ((c.totalBudget : Rat) * (c.agentPercent / 100))
    reserved := Rat.floor ((c.totalBudget : Rat) * (c.responsePercent / 100))
    total := c.totalBudget }

/-- Sum of all four category allocations, reserved included. -/
def allocationSum (a : ContextAllocation) : Int :=
  a.instructions + a.docs + a.agent + a.reserved

/-- The `ContextManager` constructor: resolve defaults, conditionally
normalize the weights, and memoize the allocation.  The codomain is
`Except` so that raise-at-construction behavior is statable; the source
constructor contains no `throw`, so the translation always returns `ok`. -/
def mkContextManager (inp : ContextConfigInput) :
    Except String (ContextConfig × ContextAllocation) :=
  Except.ok (normalizeConfig (resolveConfig inp),
    calculateAllocation (normalizeConfig (resolveConfig inp)))

/-- The three content categories competing for budget (the `type` values of
interface `ContentPriority`). -/
inductive ContentType
  | instructions
  | docs
  | agent
deriving DecidableEq, Repr

/-- Interface `ContentPriority`: a category together with its priority rank
(1 = highest, 3 = lowest). -/
structure ContentPriority where
  type : ContentType
  priority : Nat
deriving DecidableEq, Repr

/-- ASCII lowering of a JS string, as used by `task.toLowerCase()` on the
ASCII task descriptions the keyword rules look for. -/
def toLowerStr (l : List Char) : List Char :=
  l.map Char.toLower

/-- JS `taskLower.includes(kw)`: substring containment, checked by testing
`kw` as a prefix of every suffix. -/
def hasKw (taskLower kw : List Char) : Bool :=
  match taskLower with
  | [] => List.isPrefixOf kw []
  | c :: rest => List.isPrefixOf kw (c :: rest) || hasKw rest kw

def kwApi : List Char := ("api").data

def kwRest : List Char := ("rest").data

def kwEndpoint : List Char := ("endpoint").data

def kwSecurity : List Char := ("security").data

def kwAuth : List Char := ("auth").data

def kwOwasp : List Char := ("owasp").data

def kwPerformance : List Char := ("performance").data

def kwOptimize : List Char := ("optimize").data

def kwTest : List Char := ("test").data

def kwSpecWord : List Char := ("spec").data

def kwArchitecture : List Char := ("architecture").data

def kwDesign : List Char := ("design").data

/-- Keyword rules of `ContextManager.suggestPriority` applied to the already
lower-cased task: the triple is `(instructionsPriority, docsPriority,
agentPriority)`, starting from the default `(1, 2, 3)`; each matching rule
reassigns all three values, so of two matching rules the later one wins. -/
def suggestRanks (t : List Char) : Nat × Nat × Nat :=
  let r0 : Nat × Nat × Nat := (1, 2, 3)
  let r1 := if hasKw t kwApi || hasKw t kwRest || hasKw t kwEndpoint
    then (2, 3, 1) else r0
  let r2 := if hasKw t kwSecurity || hasKw t kwAuth || hasKw t kwOwasp
    then (1, 2, 3) else r1
  let r3 := if hasKw t kwPerformance || hasKw t kwOptimize
    then (2, 1, 3) else r2
  let r4 := if hasKw t kwTest || hasKw t kwSpecWord
    then (1, 2, 3) else r3
  let r5 := if hasKw t kwArchitecture || hasKw t kwDesign
    then (3, 2, 1) else r4
  r5

/-- Stable insertion of an element into a list sorted by ascending priority:
the element goes after every earlier element of smaller-or-equal priority,
matching the stable JS `Array.prototype.sort` with comparator
`(a, b) => a.priority - b.priority`. -/
def insertByPriority (x : ContentPriority) : List ContentPriority → List ContentPriority
  | [] => [x]
  | y :: ys => if x.priority < y.priority then x :: y :: ys else y :: insertByPriority x ys

/-- Stable sort by ascending priority (insertion sort). -/
def sortByPriority : List ContentPriority → List ContentPriority
  | [] => []
  | x :: xs => insertByPriority x (sortByPriority xs)

/-- `ContextManager.suggestPriority(task)`: lower-case the task, run the
keyword rules, pair each category with its rank in the push order
`[instructions, docs, agent]`, and stable-sort ascending by priority. -/
def suggestPriority (task : List Char) : List ContentPriority :=
  let t := toLowerStr task
  let r := suggestRanks t
  sortByPriority
    [⟨ContentType.instructions, r.1⟩, ⟨ContentType.docs, r.2.1⟩,
     ⟨ContentType.agent, r.2.2⟩]

/-- Rank-position weight vector of `ContextManager.allocateByPriority`
(`[0.5, 0.35, 0.15]`), embedded as exact rationals. -/
def priorityWeights : List Rat :=
  [(5 : Rat) / 10, (35 : Rat) / 100, (15 : Rat) / 100]

/-- Functional update `allocation[priority.type] = amount`. -/
def setBudgetFor (a : ContextAllocation) (t : ContentType) (amount : Int) :
    ContextAllocation :=
  match t with
  | .instructions => { a with instructions := amount }
  | .docs => { a with docs := amount }
  | .agent => { a with agent := amount }

/-- `ContextManager.allocateByPriority(task)` over a memoized allocation:
start from zero per-category budgets (keeping `reserved` and `total`), and
give the category at rank position `i` the amount
`Math.floor(totalAvailable * weights[i])`, where
`totalAvailable = total - reserved`. -/
def allocateByPriority (alloc : ContextAllocation) (task : List Char) :
    ContextAllocation :=
  let priorities := suggestPriority task
  let totalAvailable := alloc.total - alloc.reserved
  let base : ContextAllocation :=
    { instructions := 0, docs := 0, agent := 0
      reserved := alloc.reserved, total := alloc.total }
  (priorities.zip priorityWeights).foldl
    (fun acc pw =>
      setBudgetFor acc pw.1.type (Rat.floor ((totalAvailable : Rat) * pw.2)))
    base

/-- The short per-item truncation marker used inside
`getContextualInstructions` (distinct from `truncationMarker`). -/
def shortMarker : List Char :=
  ("\n[... truncated ...]").data

/-- `Math.ceil(n / 4)` as used for the token figures inside
`getContextualInstructions`; all values it is applied to there are
non-negative, and the embedding computes on `toNat`. -/
def ceilDivTokens (n : Int) : Int :=
  ((n.toNat + (CHARS_PER_TOKEN - 1)) / CHARS_PER_TOKEN : Nat)

/-- One element of the `result.instructions` array built by
`getContextualInstructions`.  The inert `file` name field is omitted: items
are modelled by their resolved content. -/
structure InstructionEntry where
  content : List Char
  truncated : Bool
  originalLength : Int
  usedLength : Int
  estimatedTokens : Int
deriving DecidableEq, Repr

/-- The `result.summary` object of `getContextualInstructions`. -/
structure ContextualSummary where
  filesLoaded : Nat
  totalCharsUsed : Int
  totalTokensUsed : Int
  remainingBudget : Int
  remainingTokens : Int
deriving DecidableEq, Repr

/-- Result of `getContextualInstructions` (the inert `task`, `fileType` and
`allocation` echo fields are omitted). -/
structure ContextualResult where
  instructions : List InstructionEntry
  totalChars : Int
  budgetRemaining : Int
  summary : ContextualSummary
deriving DecidableEq, Repr

/-- The selection loop of `getContextualInstructions`, one step per relevant
content item.  `items` carries the already-resolved content of each relevant
file (a `loadInstruction` miss and an empty file are both falsy in the JS
`if (!content) continue` and are modelled alike by a zero-length item);
`totalChars` and `budgetRemaining` are the running accumulators.  The loop
breaks outright once `budgetRemaining <= 0`; otherwise
`charsToUse = min(content.length, budgetRemaining)` characters are consumed
and an oversized item is stored as the raw prefix cut plus `shortMarker`. -/
def selectGo : List (List Char) → Int → Int → List InstructionEntry × Int × Int
  | [], totalChars, budgetRemaining => ([], totalChars, budgetRemaining)
  | content :: rest, totalChars, budgetRemaining =>
    if budgetRemaining ≤ 0 then ([], totalChars, budgetRemaining)
    else if content.length = 0 then selectGo rest totalChars budgetRemaining
    else
      let charsToUse : Int := min (content.length : Int) budgetRemaining
      let wasCut : Bool := decide ((content.length : Int) > charsToUse)
      let entry : InstructionEntry :=
        { content := if wasCut then content.take charsToUse.toNat ++ shortMarker else content
          truncated := wasCut
          originalLength := (content.length : Int)
          usedLength := charsToUse
          estimatedTokens := ceilDivTokens charsToUse }
      let r := selectGo rest (totalChars + charsToUse) (budgetRemaining - charsToUse)
      (entry :: r.1, r.2.1, r.2.2)

/-- `getContextualInstructions(task, fileType, contextBudget)` after the
relevant files have been resolved to their contents: run the selection loop
from zero used characters and the full budget, then report the summary. -/
def getContextualInstructions (items : List (List Char)) (contextBudget : Int) :
    ContextualResult :=
  let r := selectGo items 0 contextBudget
  { instructions := r.1
    totalChars := r.2.1
    budgetRemaining := r.2.2
    summary :=
      { filesLoaded := r.1.length
        totalCharsUsed := r.2.1
        totalTokensUsed := ceilDivTokens r.2.1
        remainingBudget := r.2.2
        remainingTokens := ceilDivTokens r.2.2 } }

/-- Sum of the `usedLength` figures of a list of selected entries. -/
def usedSum (es : List InstructionEntry) : Int :=
  (es.map fun e => e.usedLength).sum

/-- The literal example text of the boundary-preference property. -/
def sampleText : List Char :=
  ("Sentence one. Sentence two. Sentence three.").data

/-- The three 100-character items of the aggregate-ceiling example. -/
def exampleItems : List (List Char) :=
  [List.replicate 100 ('a'), List.replicate 100 ('b'), List.replicate 100 ('c')]

/-- Item exposing the difference between the raw per-item cut of the
selection loop and the content-aware `truncate`: nine `A`s, a period, five
`Z`s. -/
def dotItem : List Char :=
  ("AAAAAAAAA.ZZZZZ").data

/-- The priority reallocation example task description. -/
def secTask : List Char :=
  ("implement security authentication").data

/-- Constructor input whose non-reserved remainder is exactly 1000:
total budget 1111 with the default percentages, so `reserved = 111`. -/
def cfg1111 : ContextConfigInput :=
  ⟨some 1111, none, none, none, none⟩

/-- The memoized allocation of a manager built from `cfg1111`. -/
def alloc1111 : ContextAllocation :=
  calculateAllocation (normalizeConfig (resolveConfig cfg1111))

/-- Constructor input with a negative total budget and no explicit weights. -/
def cfgNegativeInput : ContextConfigInput :=
  ⟨some (-100), none, none, none, none⟩

/-- A configuration whose raw weight sum is 101: inside the silent `±1`
tolerance band, so the constructor does not rescale it. -/
def cfgTolerance : ContextConfig :=
  ⟨1000, 40, 30, 20, 11⟩

/-- The default configuration weights at total budget 1000. -/
def cfgDefault1000 : ContextConfig :=
  ⟨1000, 40, 30, 20, 10⟩

theorem lastIndexOfAux_lt (c : Char) (l : List Char) :
    ∀ (i best : Int), best < i → lastIndexOfAux c l i best < i + l.length := by
  induction l with
  | nil =>
    intro i best h
    simpa [lastIndexOfAux] using h
  | cons x xs ih =>
    intro i best h
    have h2 : (if x = c then i else best) < i + 1 := by split <;> omega
    have h3 := ih (i + 1) (if x = c then i else best) h2
    simp only [lastIndexOfAux, List.length_cons]
    push_cast at h3 ⊢
    omega

theorem lastIndexOf_lt_length (c : Char) (l : List Char) :
    lastIndexOf c l < (l.length : Int) := by
  have h := lastIndexOfAux_lt c l 0 (-1) (by omega)
  simpa [lastIndexOf] using h

theorem lastGoodPoint_lt (content : List Char) (maxChars : Nat) :
    lastGoodPoint content maxChars < ((content.take maxChars).length : Int) := by
  have h1 := lastIndexOf_lt_length ('.') (content.take maxChars)
  have h2 := lastIndexOf_lt_length ('\n') (content.take maxChars)
  have h3 := lastIndexOf_lt_length ('#') (content.take maxChars)
  unfold lastGoodPoint
  omega

theorem truncCut_length_le (content : List Char) (maxChars : Nat) :
    (truncCut content maxChars).length ≤ maxChars := by
  have hg := lastGoodPoint_lt content maxChars
  have hlen : ((content.take maxChars).length : Int) ≤ (maxChars : Int) := by
    exact_mod_cast Nat.cast_le.mpr (List.length_take_le maxChars content)
  unfold truncCut
  split
  · have ht := List.length_take_le (lastGoodPoint content maxChars + 1).toNat content
    omega
  · exact List.length_take_le maxChars content

/-- C9: `estimateTokens` rounds up, so its char-limit round trip never
undercounts the text (`text.length <= charLimitFor(estimateTokens(text))`)
and overshoots by less than one token-equivalent
(`charLimitFor(estimateTokens(text)) < text.length + 4`). -/
theorem claim9_estimation_roundtrip (content : List Char) :
    content.length ≤ getCharLimit (estimateTokens content) ∧
    getCharLimit (estimateTokens content) < content.length + CHARS_PER_TOKEN := by
  unfold getCharLimit estimateTokens CHARS_PER_TOKEN
  omega

/-- C9 witness at a concrete five-character text. -/
theorem claim9_estimation_roundtrip_witness :
    (("abcde").data).length ≤ getCharLimit (estimateTokens (("abcde").data)) ∧
    getCharLimit (estimateTokens (("abcde").data)) <
      (("abcde").data).length + CHARS_PER_TOKEN :=
  claim9_estimation_roundtrip (("abcde").data)

/-- C6: for every text and every token budget, the reported length of the
cut content — the part before the fixed marker suffix — never exceeds the
character limit derived from the budget, and the full returned content
exceeds it by at most the fixed marker length. -/
theorem claim6_truncation_within_budget (content : List Char) (budget : Nat) :
    (truncate content budget).truncatedLength ≤ getCharLimit budget ∧
    (truncate content budget).content.length ≤
      getCharLimit budget + truncationMarker.length := by
  have hcut := truncCut_length_le content (getCharLimit budget)
  unfold truncate
  split
  · next hfit =>
    exact ⟨hfit,
      hfit.trans (Nat.le_add_right (getCharLimit budget) truncationMarker.length)⟩
  · next hfit =>
    refine ⟨hcut, ?_⟩
    simpa [List.length_append] using
      Nat.add_le_add_right hcut truncationMarker.length

theorem suggestRanks_cases (t : List Char) :
    suggestRanks t = (1, 2, 3) ∨ suggestRanks t = (2, 3, 1) ∨
    suggestRanks t = (2, 1, 3) ∨ suggestRanks t = (3, 2, 1) := by
  simp only [suggestRanks]
  split_ifs <;> simp

/-- C8: for every task description, the priority assignment gives each of
the three categories exactly one rank, the sorted rank list is exactly
`[1, 2, 3]` (contiguous, no ties), and each category appears exactly once. -/
theorem claim8_rank_permutation (task : List Char) :
    ((suggestPriority task).map fun p => p.priority) = [1, 2, 3] ∧
    ((suggestPriority task).map fun p => p.type).Perm
      [ContentType.instructions, ContentType.docs, ContentType.agent] := by
  have h := suggestRanks_cases (toLowerStr task)
  simp only [suggestPriority]
  rcases h with h | h | h | h <;> rw [h] <;> decide

/-- C3 counterexample: with the literal sample text and token budget 6
(char limit 24, landing mid-way through "two"), `truncate` does NOT cut at
the period after "Sentence two."; it returns the raw hard cut
"Sentence one. Sentence t" followed by the marker. -/
theorem claim3_boundary_counterexample :
    truncate sampleText 6 =
      ⟨(("Sentence one. Sentence t").data) ++ truncationMarker,
        43, 11, 24, 6, true, 56⟩ ∧
    (truncate sampleText 6).content ≠
      (("Sentence one. Sentence two.").data) ++ truncationMarker := by
  decide

/-- C3 amended: at the sample text with char limit 24 (the only token
budget whose limit lands mid-way through "two"), the rightmost boundary is
the period at index 12, which does not lie past 70% of 24, so `truncate`
returns the raw hard cut "Sentence one. Sentence t" (mid-word) followed by
the marker, not a sentence-boundary cut. -/
theorem claim3_hard_cut_amended :
    getCharLimit 6 = 24 ∧
    lastGoodPoint sampleText 24 = 12 ∧
    ¬(10 * lastGoodPoint sampleText 24 > 7 * (24 : Int)) ∧
    (truncate sampleText 6).content =
      (("Sentence one. Sentence t").data) ++ truncationMarker ∧
    (truncate sampleText 6).wasTruncated = true := by
  decide

/-- C7: the task "implement security authentication" ranks the categories
`[instructions, docs, agent]` with ranks `[1, 2, 3]`; on an allocation with
non-reserved remainder 1000 (total 1111, reserved 111), priority
reallocation gives instructions 500, docs 350, agent 150 (floor of the
50/35/15 split). -/
theorem claim7_priority_reallocation_example :
    ((suggestPriority secTask).map fun p => p.type) =
      [ContentType.instructions, ContentType.docs, ContentType.agent] ∧
    ((suggestPriority secTask).map fun p => p.priority) = [1, 2, 3] ∧
    alloc1111.total - alloc1111.reserved = 1000 ∧
    allocateByPriority alloc1111 secTask = ⟨500, 350, 150, 111, 1111⟩ := by
  decide

theorem selectGo_conservation (items : List (List Char)) :
    ∀ (tc b : Int), 0 ≤ b →
      (selectGo items tc b).2.1 = tc + usedSum (selectGo items tc b).1 ∧
      (selectGo items tc b).2.2 = b - usedSum (selectGo items tc b).1 ∧
      0 ≤ (selectGo items tc b).2.2 := by
  induction items with
  | nil =>
    intro tc b hb
    simp [selectGo, usedSum, hb]
  | cons content rest ih =>
    intro tc b hb
    by_cases h0 : b ≤ 0
    · simp [selectGo, h0, usedSum, hb]
    · by_cases hemp : content.length = 0
      · simp only [selectGo, if_neg h0, if_pos hemp]
        exact ih tc b hb
      · simp only [selectGo, if_neg h0, if_neg hemp]
        have hcu1 : 0 ≤ min ((content.length : Int)) b := by omega
        have hcu2 : min ((content.length : Int)) b ≤ b := min_le_right _ _
        obtain ⟨ih1, ih2, ih3⟩ :=
          ih (tc + min ((content.length : Int)) b)
            (b - min ((content.length : Int)) b) (by omega)
        simp only [usedSum, List.map_cons, List.sum_cons] at ih1 ih2 ⊢
        refine ⟨by omega, by omega, ih3⟩

/-- C2: the selection loop of `getContextualInstructions` never lets the
summed `usedLength` of the returned items exceed a non-negative aggregate
budget; a non-positive remaining budget stops the loop before any further
item is considered; and on three 100-character items with budget 150 it
returns the first item whole (100 used), the second truncated to 50 used,
omits the third, and uses exactly 150 characters in total. -/
theorem claim2_selection_respects_ceiling :
    (∀ (items : List (List Char)) (b : Int), 0 ≤ b →
      usedSum (getContextualInstructions items b).instructions ≤ b) ∧
    (∀ (content : List Char) (rest : List (List Char)) (tc b : Int), b ≤ 0 →
      selectGo (content :: rest) tc b = ([], tc, b)) ∧
    getContextualInstructions exampleItems 150 =
      { instructions :=
          [⟨List.replicate 100 ('a'), false, 100, 100, 25⟩,
           ⟨List.replicate 50 ('b') ++ shortMarker, true, 100, 50, 13⟩]
        totalChars := 150
        budgetRemaining := 0
        summary := ⟨2, 150, 38, 0, 0⟩ } := by
  refine ⟨?_, ?_, by decide⟩
  · intro items b hb
    obtain ⟨h1, h2, h3⟩ := selectGo_conservation items 0 b hb
    simp only [getContextualInstructions]
    omega
  · intro content rest tc b hb
    simp [selectGo, hb]

/-- C2 witness: both universally quantified parts applied at concrete
inputs, discharging the budget-sign hypotheses. -/
theorem claim2_selection_respects_ceiling_witness :
    usedSum (getContextualInstructions exampleItems 150).instructions ≤ 150 ∧
    selectGo [("x").data] 7 (-2) = ([], 7, -2) :=
  ⟨claim2_selection_respects_ceiling.1 exampleItems 150 (by decide),
   claim2_selection_respects_ceiling.2.1 (("x").data) [] 7 (-2) (by decide)⟩

/-- C10: for every item list and every non-negative budget, the running
state of the selection loop conserves budget exactly — used characters plus
remaining budget equal the budget that entered that loop state — and the
remaining budget never goes negative; hence the reported summary satisfies
`totalCharsUsed + remainingBudget = budget` exactly. -/
theorem claim10_budget_conservation (items : List (List Char)) (tc b : Int)
    (hb : 0 ≤ b) :
    (selectGo items tc b).2.1 = tc + usedSum (selectGo items tc b).1 ∧
    (selectGo items tc b).2.2 = b - usedSum (selectGo items tc b).1 ∧
    0 ≤ (selectGo items tc b).2.2 ∧
    (getContextualInstructions items b).summary.totalCharsUsed +
      (getContextualInstructions items b).summary.remainingBudget = b ∧
    0 ≤ (getContextualInstructions items b).summary.remainingBudget := by
  obtain ⟨h1, h2, h3⟩ := selectGo_conservation items tc b hb
  obtain ⟨g1, g2, g3⟩ := selectGo_conservation items 0 b hb
  refine ⟨h1, h2, h3, ?_, ?_⟩ <;> simp only [getContextualInstructions] <;> omega

/-- C10 witness at two concrete items (one oversized, one empty) with
budget 20 and intermediate used-count 5. -/
theorem claim10_budget_conservation_witness :
    (selectGo [List.replicate 30 ('q'), []] 5 20).2.1 =
      5 + usedSum (selectGo [List.replicate 30 ('q'), []] 5 20).1 ∧
    (selectGo [List.replicate 30 ('q'), []] 5 20).2.2 =
      20 - usedSum (selectGo [List.replicate 30 ('q'), []] 5 20).1 ∧
    0 ≤ (selectGo [List.replicate 30 ('q'), []] 5 20).2.2 ∧
    (getContextualInstructions [List.replicate 30 ('q'), []] 20).summary.totalCharsUsed +
      (getContextualInstructions [List.replicate 30 ('q'), []] 20).summary.remainingBudget = 20 ∧
    0 ≤ (getContextualInstructions [List.replicate 30 ('q'), []] 20).summary.remainingBudget :=
  claim10_budget_conservation [List.replicate 30 ('q'), []] 5 20 (by decide)

theorem selectGo_entries (items : List (List Char)) :
    ∀ (tc b : Int) (e : InstructionEntry), e ∈ (selectGo items tc b).1 →
      ∃ content, content ∈ items ∧ e.originalLength = (content.length : Int) ∧
        (e.truncated = true →
          e.content = content.take e.usedLength.toNat ++ shortMarker) ∧
        (e.truncated = false → e.content = content) := by
  induction items with
  | nil =>
    intro tc b e he
    simp [selectGo] at he
  | cons content rest ih =>
    intro tc b e he
    by_cases h0 : b ≤ 0
    · simp [selectGo, h0] at he
    · by_cases hemp : content.length = 0
      · simp only [selectGo, if_neg h0, if_pos hemp] at he
        obtain ⟨c, hc, hrest⟩ := ih tc b e he
        exact ⟨c, List.mem_cons_of_mem _ hc, hrest⟩
      · simp only [selectGo, if_neg h0, if_neg hemp] at he
        rcases List.mem_cons.mp he with he1 | he2
        · subst he1
          refine ⟨content, List.mem_cons_self _ _, rfl, ?_, ?_⟩
          · intro ht
            simp only at ht ⊢
            rw [if_pos ht]
          · intro hf
            simp only at hf ⊢
            rw [if_neg (by rw [hf]; simp)]
        · obtain ⟨c, hc, hrest⟩ := ih _ _ e he2
          exact ⟨c, List.mem_cons_of_mem _ hc, hrest⟩

/-- C5 amended: the per-item truncation inside the selection loop is a raw
prefix cut of `usedLength` characters followed by the short marker
`"\n[... truncated ...]"` — not the content-aware `truncate` algorithm;
untruncated entries carry their item verbatim. -/
theorem claim5_selection_truncation_is_raw_cut (items : List (List Char))
    (b : Int) (e : InstructionEntry)
    (he : e ∈ (getContextualInstructions items b).instructions) :
    ∃ content, content ∈ items ∧ e.originalLength = (content.length : Int) ∧
      (e.truncated = true →
        e.content = content.take e.usedLength.toNat ++ shortMarker) ∧
      (e.truncated = false → e.content = content) :=
  selectGo_entries items 0 b e he

/-- C5 witness: the raw-cut description applied to the concrete oversized
item `dotItem` under remaining budget 12. -/
theorem claim5_selection_truncation_is_raw_cut_witness :
    ∃ content, content ∈ [dotItem] ∧
      ((⟨(("AAAAAAAAA.ZZ").data) ++ shortMarker, true, 15, 12, 3⟩ :
        InstructionEntry)).originalLength = (content.length : Int) ∧
      ((true : Bool) = true →
        (("AAAAAAAAA.ZZ").data) ++ shortMarker =
          content.take ((12 : Int)).toNat ++ shortMarker) ∧
      ((true : Bool) = false → (("AAAAAAAAA.ZZ").data) ++ shortMarker = content) :=
  claim5_selection_truncation_is_raw_cut [dotItem] 12
    ⟨(("AAAAAAAAA.ZZ").data) ++ shortMarker, true, 15, 12, 3⟩ (by decide)

/-- C5 counterexample: on the single item `dotItem` with aggregate budget
12, the loop stores the raw cut `"AAAAAAAAA.ZZ"` plus the short marker,
while the content-aware `truncate` at the equivalent 3-token budget
(char limit 12) cuts back to the period, `"AAAAAAAAA."`, and appends the
long marker — the two contents differ. -/
theorem claim5_truncation_mismatch_counterexample :
    getCharLimit 3 = 12 ∧
    ((getContextualInstructions [dotItem] 12).instructions.map fun e => e.content) =
      [(("AAAAAAAAA.ZZ").data) ++ shortMarker] ∧
    (truncate dotItem 3).content = (("AAAAAAAAA.").data) ++ truncationMarker ∧
    (("AAAAAAAAA.ZZ").data) ++ shortMarker ≠
      (("AAAAAAAAA.").data) ++ truncationMarker := by
  decide

theorem ratFloor_eq_floor (q : Rat) : Rat.floor q = ⌊q⌋ := by
  rw [Rat.floor_def', Rat.floor_def]

theorem ratFloor_le (q : Rat) : (Rat.floor q : Rat) ≤ q := by
  rw [ratFloor_eq_floor]
  exact Int.floor_le q

theorem lt_ratFloor_add_one (q : Rat) : q < Rat.floor q + 1 := by
  rw [ratFloor_eq_floor]
  exact Int.lt_floor_add_one q

theorem normalizeConfig_totalBudget (c : ContextConfig) :
    (normalizeConfig c).totalBudget = c.totalBudget := by
  unfold normalizeConfig
  split <;> rfl

theorem calcAlloc_bounds (c : ContextConfig) (h : configWeightSum c = 100) :
    allocationSum (calculateAllocation c) ≤ c.totalBudget ∧
    c.totalBudget - 4 ≤ allocationSum (calculateAllocation c) := by
  unfold allocationSum calculateAllocation
  dsimp only
  have hsum : c.instructionsPercent + c.docsPercent + c.agentPercent +
      c.responsePercent = 100 := h
  have hx : (c.totalBudget : Rat) * (c.instructionsPercent / 100) +
      (c.totalBudget : Rat) * (c.docsPercent / 100) +
      (c.totalBudget : Rat) * (c.agentPercent / 100) +
      (c.totalBudget : Rat) * (c.responsePercent / 100) = (c.totalBudget : Rat) := by
    field_simp
    linear_combination (c.totalBudget : Rat) * hsum
  have f1 := ratFloor_le ((c.totalBudget : Rat) * (c.instructionsPercent / 100))
  have f2 := ratFloor_le ((c.totalBudget : Rat) * (c.docsPercent / 100))
  have f3 := ratFloor_le ((c.totalBudget : Rat) * (c.agentPercent / 100))
  have f4 := ratFloor_le ((c.totalBudget : Rat) * (c.responsePercent / 100))
  have g1 := lt_ratFloor_add_one ((c.totalBudget : Rat) * (c.instructionsPercent / 100))
  have g2 := lt_ratFloor_add_one ((c.totalBudget : Rat) * (c.docsPercent / 100))
  have g3 := lt_ratFloor_add_one ((c.totalBudget : Rat) * (c.agentPercent / 100))
  have g4 := lt_ratFloor_add_one ((c.totalBudget : Rat) * (c.responsePercent / 100))
  constructor
  · have hle : ((Rat.floor ((c.totalBudget : Rat) * (c.instructionsPercent / 100)) +
        Rat.floor ((c.totalBudget : Rat) * (c.docsPercent / 100)) +
        Rat.floor ((c.totalBudget : Rat) * (c.agentPercent / 100)) +
        Rat.floor ((c.totalBudget : Rat) * (c.responsePercent / 100)) : Int) : Rat) ≤
        (c.totalBudget : Rat) := by
      push_cast
      linarith
    exact_mod_cast hle
  · have hlt : (c.totalBudget : Rat) <
        ((Rat.floor ((c.totalBudget : Rat) * (c.instructionsPercent / 100)) +
        Rat.floor ((c.totalBudget : Rat) * (c.docsPercent / 100)) +
        Rat.floor ((c.totalBudget : Rat) * (c.agentPercent / 100)) +
        Rat.floor ((c.totalBudget : Rat) * (c.responsePercent / 100)) : Int) : Rat) + 4 := by
      push_cast
      linarith
    have hlt2 : c.totalBudget <
        (Rat.floor ((c.totalBudget : Rat) * (c.instructionsPercent / 100)) +
        Rat.floor ((c.totalBudget : Rat) * (c.docsPercent / 100)) +
        Rat.floor ((c.totalBudget : Rat) * (c.agentPercent / 100)) +
        Rat.floor ((c.totalBudget : Rat) * (c.responsePercent / 100))) + 4 := by
      exact_mod_cast hlt
    omega

/-- C1 amended: for every configuration whose weights, after the
constructor's conditional normalization, sum to exactly 100 — which is the
case whenever the raw sum is exactly 100 or deviates from 100 by more than
one point, triggering the documented rescale — the per-category budgets
(reserved included) sum to at most the total budget and to at least the
total budget minus 4, the number of categories.  (Inside the silent
tolerance band `0 < |sum - 100| <= 1` no rescale happens and the bound can
fail, see the counterexample.) -/
theorem claim1_allocation_sum_bounds (c : ContextConfig)
    (h : configWeightSum (normalizeConfig c) = 100) :
    allocationSum (calculateAllocation (normalizeConfig c)) ≤ c.totalBudget ∧
    c.totalBudget - 4 ≤ allocationSum (calculateAllocation (normalizeConfig c)) := by
  have hb := calcAlloc_bounds (normalizeConfig c) h
  rwa [normalizeConfig_totalBudget] at hb

/-- C1 witness at the default weights (raw sum exactly 100) with total
budget 1000. -/
theorem claim1_allocation_sum_bounds_witness :
    allocationSum (calculateAllocation (normalizeConfig cfgDefault1000)) ≤ 1000 ∧
    (1000 : Int) - 4 ≤
      allocationSum (calculateAllocation (normalizeConfig cfgDefault1000)) :=
  claim1_allocation_sum_bounds cfgDefault1000 (by decide)

/-- C1 counterexample: weights 40/30/20/11 sum to 101, inside the `±1`
tolerance, so no normalization happens, and with total budget 1000 the
allocations 400+300+200+110 = 1010 exceed the total — the claimed upper
bound fails for a weight set whose raw sum deviates from 100. -/
theorem claim1_tolerance_counterexample :
    normalizeConfig cfgTolerance = cfgTolerance ∧
    allocationSum (calculateAllocation (normalizeConfig cfgTolerance)) = 1010 ∧
    ¬(allocationSum (calculateAllocation (normalizeConfig cfgTolerance)) ≤
        cfgTolerance.totalBudget) := by
  decide

/-- C4 amended: the allocator constructor never raises — for every input
(including a negative total budget) it returns `ok`; the configuration it
stores is the resolved input unchanged whenever the raw weight sum is
within the `±1` tolerance (the only adjustment ever applied is the
documented weight normalization), and the stored total budget always equals
the configured one. -/
theorem claim4_constructor_never_raises :
    (∀ inp : ContextConfigInput, (mkContextManager inp).isOk = true) ∧
    (∀ inp : ContextConfigInput,
      |configWeightSum (resolveConfig inp) - 100| ≤ 1 →
        (mkContextManager inp).map Prod.fst = Except.ok (resolveConfig inp)) ∧
    (∀ (inp : ContextConfigInput) (cfg : ContextConfig) (alloc : ContextAllocation),
      mkContextManager inp = Except.ok (cfg, alloc) →
        cfg.totalBudget = (resolveConfig inp).totalBudget) := by
  refine ⟨fun inp => rfl, fun inp h => ?_, fun inp cfg alloc h => ?_⟩
  · have hn : normalizeConfig (resolveConfig inp) = resolveConfig inp := by
      unfold normalizeConfig
      exact if_neg (not_lt.mpr h)
    simp [mkContextManager, Except.map, hn]
  · have h2 : (normalizeConfig (resolveConfig inp),
        calculateAllocation (normalizeConfig (resolveConfig inp))) = (cfg, alloc) :=
      Except.ok.inj h
    have h3 : normalizeConfig (resolveConfig inp) = cfg := congrArg Prod.fst h2
    rw [← h3, normalizeConfig_totalBudget]

/-- C4 witness: at the negative-budget input, construction succeeds, stores
the resolved configuration unchanged (its raw weight sum is exactly 100),
and keeps the total budget `-100`. -/
theorem claim4_constructor_never_raises_witness :
    (mkContextManager cfgNegativeInput).isOk = true ∧
    (mkContextManager cfgNegativeInput).map Prod.fst =
      Except.ok (resolveConfig cfgNegativeInput) ∧
    (⟨-100, 40, 30, 20, 10⟩ : ContextConfig).totalBudget =
      (resolveConfig cfgNegativeInput).totalBudget :=
  ⟨claim4_constructor_never_raises.1 cfgNegativeInput,
   claim4_constructor_never_raises.2.1 cfgNegativeInput (by decide),
   claim4_constructor_never_raises.2.2 cfgNegativeInput ⟨-100, 40, 30, 20, 10⟩
     ⟨-40, -30, -20, -10, -100⟩ (by decide)⟩

/-- C4 counterexample: constructing with total budget `-100` does not raise
any ConfigurationError — it succeeds and memoizes the floor allocations of
the negative budget. -/
theorem claim4_negative_budget_counterexample :
    mkContextManager cfgNegativeInput =
      Except.ok (⟨-100, 40, 30, 20, 10⟩, ⟨-40, -30, -20, -10, -100⟩) := by
  decide
